import Mathlib

/-! Verification development for the cdoc document compiler.

The definitions below are a shallow embedding of the Rust sources of the
repository (the shortcode/code-span scanner in src/cdoc/src/ast/mod.rs,
the document/element model in src/cdoc/src/document.rs and the three
renderers under src/cdoc/src/renderers/).  Rust strings are modelled as
lists of characters and indices as positions in those lists; all the
delimiters the scanner searches for are ASCII, so the delimiter structure
is unaffected by this abstraction.  Rust `while` loops are embedded as
fuel-bounded recursion; a distinguished `fuelOut` result separates fuel
exhaustion (an artifact of the embedding, never reached with the fuel the
entry points supply) from genuine results of the Rust code. -/

namespace Cdoc

/-- Rust `&str`, modelled as a list of characters. -/
abbrev Chars := List Char

/-- Result of a scanner function.  `found` and `notFound` model `Some` and
`None`; `panicked` models a Rust panic from an out-of-range string slice
(`&input[i..]` with `i` greater than the length); `fuelOut` marks fuel
exhaustion of the bounded embedding of a `while` loop. -/
inductive Scan (α : Type) where
  | found (val : α)
  | notFound
  | panicked
  | fuelOut
deriving DecidableEq

/-- Shortcode span description, from `ShortcodeIdx` in
src/cdoc/src/ast/mod.rs.  `inline` carries the start of the opening
double-brace and the position of the matched closing delimiter; `block`
carries the defining tag's span and the end tag's span. -/
inductive ShortcodeIdx where
  | inline (start stop : Nat)
  | block (defSpan : Nat × Nat) (endSpan : Nat × Nat)
deriving DecidableEq

/-- Rust `str::find` with a string needle: index of the first occurrence
of `needle`, `none` when there is none (for the empty needle: index 0). -/
def strFind (needle : Chars) : Chars → Option Nat
  | [] => if needle = [] then some 0 else none
  | c :: rest =>
    if (c :: rest).take needle.length = needle then some 0
    else (strFind needle rest).map (· + 1)

/-- Rust slice `&input[i..]`: defined when `i ≤ input.len()`, a panic
(modelled as `none`) otherwise. -/
def sliceFrom (input : Chars) (i : Nat) : Option Chars :=
  if i ≤ input.length then some (input.drop i) else none

/-- The literal "\x7b\x7b" (inline shortcode opening delimiter). -/
def inlOpen : Chars := ['\x7b', '\x7b']

/-- The literal "\x7d\x7d" (inline shortcode closing delimiter). -/
def inlClose : Chars := ['\x7d', '\x7d']

/-- The literal "\x7b%" (block shortcode opening delimiter). -/
def blkOpen : Chars := ['\x7b', '%']

/-- The literal "\x7b% end" (block shortcode end keyword). -/
def blkEndKw : Chars := ['\x7b', '%', ' ', 'e', 'n', 'd']

/-- The literal "%\x7d" (closing of a block shortcode tag). -/
def pctClose : Chars := ['%', '\x7d']

/-- The `while level > 0` loop of `extract_inline`
(src/cdoc/src/ast/mod.rs, lines 227-253), fuel-bounded.  Arguments after
the fuel are the current `level`, `cur_start` and `end` variables; the
returned number is the final value of `end`. -/
def inlineLoop (input : Chars) : Nat → Nat → Nat → Nat → Scan Nat
  | _, 0, _, endPos => .found endPos
  | 0, _ + 1, _, _ => .fuelOut
  | fuel + 1, level + 1, curStart, _ =>
    match sliceFrom input (curStart + 2) with
    | none => .panicked
    | some rest =>
      let newStart := (strFind inlOpen rest).map (· + curStart + 2)
      match strFind inlClose rest with
      | none => .notFound
      | some e =>
        let endPos := curStart + 2 + e
        match newStart with
        | some s =>
          if s < endPos then inlineLoop input fuel (level + 2) (s + 2) endPos
          else inlineLoop input fuel level (endPos + 2) endPos
        | none => inlineLoop input fuel level (endPos + 2) endPos

/-- `extract_inline` of src/cdoc/src/ast/mod.rs (lines 227-253). -/
def extract_inline (start : Nat) (input : Chars) : Scan ShortcodeIdx :=
  match inlineLoop input (input.length + 2) 1 start start with
  | .found e => .found (.inline start e)
  | .notFound => .notFound
  | .panicked => .panicked
  | .fuelOut => .fuelOut

/-- The `while level > 0` loop of `extract_block`
(src/cdoc/src/ast/mod.rs, lines 189-225), fuel-bounded.  Arguments after
the fuel are the current `level`, `cur_start` and `end_block` variables;
the returned number is the final value of `end_block`. -/
def blockLoop (input : Chars) : Nat → Nat → Nat → Nat → Scan Nat
  | _, 0, _, endBlock => .found endBlock
  | 0, _ + 1, _, _ => .fuelOut
  | fuel + 1, level + 1, curStart, _ =>
    match sliceFrom input (curStart + 2) with
    | none => .panicked
    | some rest =>
      let newStart := (strFind blkOpen rest).map (· + curStart + 2)
      match strFind blkEndKw rest with
      | none => .notFound
      | some e =>
        let endBlock := curStart + 2 + e
        match newStart with
        | some s =>
          if s < endBlock then blockLoop input fuel (level + 2) (s + 2) endBlock
          else blockLoop input fuel level (endBlock + 7) endBlock
        | none => blockLoop input fuel level (endBlock + 7) endBlock

/-- `extract_block` of src/cdoc/src/ast/mod.rs (lines 189-225). -/
def extract_block (start : Nat) (input : Chars) : Scan ShortcodeIdx :=
  match sliceFrom input start with
  | none => .panicked
  | some rest0 =>
    match strFind pctClose rest0 with
    | none => .notFound
    | some e0 =>
      match blockLoop input (input.length + 2) 1 (start + e0) (start + e0) with
      | .found endBlock =>
        match sliceFrom input (endBlock + 6) with
        | none => .panicked
        | some rest1 =>
          match strFind pctClose rest1 with
          | none => .notFound
          | some e2 =>
            .found (.block (start, start + e0) (endBlock, endBlock + 6 + e2))
      | .notFound => .notFound
      | .panicked => .panicked
      | .fuelOut => .fuelOut

/-- `find_shortcode` of src/cdoc/src/ast/mod.rs (lines 285-302). -/
def find_shortcode (input : Chars) : Scan ShortcodeIdx :=
  match strFind inlOpen input with
  | none =>
    match strFind blkOpen input with
    | none => .notFound
    | some sb => extract_block sb input
  | some si =>
    match strFind blkOpen input with
    | none => extract_inline si input
    | some sb =>
      if si < sb then extract_inline si input else extract_block sb input

/-- Closing-delimiter selection of `find_next_block`
(src/cdoc/src/ast/mod.rs, lines 275-279): given the input after the
opening backtick, the closing delimiter is a triple backtick when strictly
more than two characters remain and the next two are backticks, a single
backtick otherwise. -/
def endDelimSel (rest : Chars) : Chars :=
  if rest.length > 2 ∧ rest.take 2 = ['\x60', '\x60'] then
    ['\x60', '\x60', '\x60']
  else ['\x60']

/-- `find_next_block` of src/cdoc/src/ast/mod.rs (lines 273-283): next
code span delimited by backticks. -/
def find_next_block (input : Chars) : Option (Nat × Nat) :=
  match strFind ['\x60'] input with
  | none => none
  | some start =>
    let rest := input.drop (start + 1)
    let endDelim := endDelimSel rest
    match strFind endDelim rest with
    | none => none
    | some j => some (start, start + 1 + j + endDelim.length)

/-- The loop of `find_all_blocks` (src/cdoc/src/ast/mod.rs, lines
255-271), fuel-bounded; `offset` accumulates the consumed length. -/
def allBlocksLoop : Nat → Nat → Chars → List (Nat × Nat)
  | 0, _, _ => []
  | fuel + 1, offset, rest =>
    match find_next_block rest with
    | none => []
    | some (start, stop) =>
      (offset + start, offset + stop) :: allBlocksLoop fuel (offset + stop) (rest.drop stop)

/-- `find_all_blocks` of src/cdoc/src/ast/mod.rs (lines 255-271). -/
def find_all_blocks (input : Chars) : List (Nat × Nat) :=
  allBlocksLoop (input.length + 1) 0 input

/-! Basic facts about `strFind`. -/

theorem strFind_nil_eq (needle : Chars) :
    strFind needle [] = if needle = [] then some 0 else none := rfl

theorem strFind_empty_needle (s : Chars) : strFind [] s = some 0 := by
  cases s <;> simp [strFind]

/-- A successful `strFind` marks a genuine occurrence: the needle is the
prefix of the remainder at the found index. -/
theorem strFind_take {needle s : Chars} {i : Nat} (h : strFind needle s = some i) :
    (s.drop i).take needle.length = needle := by
  induction s generalizing i with
  | nil =>
    simp [strFind] at h
    obtain ⟨h1, h2⟩ := h
    subst h1; subst h2; rfl
  | cons c rest ih =>
    by_cases hp : (c :: rest).take needle.length = needle
    · rw [strFind, if_pos hp] at h
      cases h
      simpa using hp
    · rw [strFind, if_neg hp] at h
      rcases Option.map_eq_some'.mp h with ⟨j, hj, rfl⟩
      simpa using ih hj

/-- A found index is at most the string length. -/
theorem strFind_le {needle s : Chars} {i : Nat} (h : strFind needle s = some i) :
    i ≤ s.length := by
  induction s generalizing i with
  | nil =>
    simp [strFind] at h
    omega
  | cons c rest ih =>
    by_cases hp : (c :: rest).take needle.length = needle
    · rw [strFind, if_pos hp] at h
      cases h
      exact Nat.zero_le _
    · rw [strFind, if_neg hp] at h
      rcases Option.map_eq_some'.mp h with ⟨j, hj, rfl⟩
      have := ih hj
      simp only [List.length_cons]
      omega

/-- The occurrence found by `strFind` lies entirely inside the string. -/
theorem strFind_le_length {needle s : Chars} {i : Nat} (h : strFind needle s = some i) :
    i + needle.length ≤ s.length := by
  have hle := strFind_le h
  have ht := strFind_take h
  have hlen : ((s.drop i).take needle.length).length = needle.length := by rw [ht]
  rw [List.length_take, List.length_drop] at hlen
  omega

/-- Appending more input after an occurrence does not change the first
occurrence `strFind` reports. -/
theorem strFind_append {needle s : Chars} {i : Nat} (h : strFind needle s = some i)
    (t : Chars) : strFind needle (s ++ t) = some i := by
  induction s generalizing i with
  | nil =>
    simp [strFind] at h
    obtain ⟨h1, h2⟩ := h
    subst h1; subst h2
    exact strFind_empty_needle t
  | cons c rest ih =>
    by_cases hp : (c :: rest).take needle.length = needle
    · rw [strFind, if_pos hp] at h
      cases h
      have hle : needle.length ≤ (c :: rest).length := by
        have : ((c :: rest).take needle.length).length = needle.length := by rw [hp]
        rw [List.length_take] at this
        omega
      rw [List.cons_append, strFind, if_pos]
      rw [← List.cons_append, List.take_append_of_le_length hle, hp]
    · rw [strFind, if_neg hp] at h
      rcases Option.map_eq_some'.mp h with ⟨j, hj, rfl⟩
      have hinner := strFind_le_length hj
      have hle : needle.length ≤ (c :: rest).length := by
        simp only [List.length_cons]
        omega
      have hcond : ¬((c :: (rest ++ t)).take needle.length = needle) := by
        intro hcc
        apply hp
        rw [← List.cons_append, List.take_append_of_le_length hle] at hcc
        exact hcc
      show strFind needle (c :: (rest ++ t)) = some (j + 1)
      rw [strFind, if_neg hcond, ih hj]
      rfl

/-- Slicing an appended string at an offset inside the second part. -/
theorem sliceFrom_append {v : Chars} (u : Chars) {k : Nat} (hk : k ≤ v.length) (t : Chars) :
    sliceFrom (u ++ (v ++ t)) (u.length + k) = some (v.drop k ++ t) := by
  unfold sliceFrom
  rw [if_pos (by simp; omega)]
  rw [List.drop_append]
  rw [List.drop_append_of_le_length hk]

/-! The nested-block pattern of the balanced-nesting property, and the
run of `extract_block` on any input that contains it.  The pattern
is "\x7b% box %\x7d\x7b% box %\x7d\x7b% end_box %\x7d\x7b% end_box %\x7d":
an outer block shortcode whose body is a nested block shortcode of the
same name. -/

/-- The doubly-nested `box` block shortcode pattern (44 characters):
outer opening tag at 0-8, inner opening tag at 9-17, inner end tag at
18-30, outer end tag at 31-43. -/
def patC1 : Chars :=
  ("\x7b% box %\x7d\x7b% box %\x7d\x7b% end_box %\x7d\x7b% end_box %\x7d").toList

theorem patC1_length : patC1.length = 44 := by decide

/-- First loop iteration on the pattern: the inner opening tag is seen
before the first end keyword, so the level rises to 2. -/
theorem c1_loop_step1 (u t : Chars) (f : Nat) :
    blockLoop (u ++ (patC1 ++ t)) (f + 1) 1 (u.length + 7) (u.length + 7) =
      blockLoop (u ++ (patC1 ++ t)) f 2 (u.length + 11) (u.length + 18) := by
  rw [blockLoop]
  have h9 : sliceFrom (u ++ (patC1 ++ t)) (u.length + 7 + 2) = some (patC1.drop 9 ++ t) := by
    rw [show u.length + 7 + 2 = u.length + 9 from rfl]
    exact sliceFrom_append u (by decide) t
  have hEnd : strFind blkEndKw (patC1.drop 9 ++ t) = some 9 :=
    strFind_append (by decide) t
  have hOpen : strFind blkOpen (patC1.drop 9 ++ t) = some 0 :=
    strFind_append (by decide) t
  simp only [h9, hEnd, hOpen, Option.map_some']
  rw [if_pos (by omega)]
  simp only [Nat.zero_add]

/-- Second loop iteration: the inner end keyword and the next opener
coincide (position 18 in the pattern), so the level falls back to 1. -/
theorem c1_loop_step2 (u t : Chars) (f : Nat) :
    blockLoop (u ++ (patC1 ++ t)) (f + 1) 2 (u.length + 11) (u.length + 18) =
      blockLoop (u ++ (patC1 ++ t)) f 1 (u.length + 25) (u.length + 18) := by
  rw [blockLoop]
  have h13 : sliceFrom (u ++ (patC1 ++ t)) (u.length + 11 + 2) = some (patC1.drop 13 ++ t) := by
    rw [show u.length + 11 + 2 = u.length + 13 from rfl]
    exact sliceFrom_append u (by decide) t
  have hEnd : strFind blkEndKw (patC1.drop 13 ++ t) = some 5 :=
    strFind_append (by decide) t
  have hOpen : strFind blkOpen (patC1.drop 13 ++ t) = some 5 :=
    strFind_append (by decide) t
  simp only [h13, hEnd, hOpen, Option.map_some']
  rw [if_neg (by omega)]

/-- Third loop iteration: the outer end keyword (position 31 in the
pattern) closes the outer block, and the level reaches 0 with the final
`end_block` pointing at the outer end tag. -/
theorem c1_loop_step3 (u t : Chars) (f : Nat) :
    blockLoop (u ++ (patC1 ++ t)) (f + 1) 1 (u.length + 25) (u.length + 18) =
      .found (u.length + 31) := by
  rw [blockLoop]
  have h27 : sliceFrom (u ++ (patC1 ++ t)) (u.length + 25 + 2) = some (patC1.drop 27 ++ t) := by
    rw [show u.length + 25 + 2 = u.length + 27 from rfl]
    exact sliceFrom_append u (by decide) t
  have hEnd : strFind blkEndKw (patC1.drop 27 ++ t) = some 4 :=
    strFind_append (by decide) t
  have hOpen : strFind blkOpen (patC1.drop 27 ++ t) = some 4 :=
    strFind_append (by decide) t
  simp only [h27, hEnd, hOpen, Option.map_some']
  rw [if_neg (by omega)]
  rw [blockLoop]

/-- C1: for every input string that contains the doubly-nested block
shortcode pattern "\x7b% box %\x7d\x7b% box %\x7d\x7b% end_box %\x7d\x7b%
end_box %\x7d" — with an arbitrary prefix `u` before it and an arbitrary
suffix `t` after it — `extract_block` applied at the outer opening
delimiter returns the outer pair's spans: the def span `(p, p + 7)` is the
outer opening tag (its "%\x7d" starts at `p + 7`), and the end span
`(p + 31, p + 42)` is the final outer "\x7b% end_box %\x7d" closing tag
(starting at `p + 31`, its "%\x7d" at `p + 42`), not the inner one at
`p + 18`.  The proof tracks the nesting level through the loop: it rises
to 2 at the inner opener and returns to 0 only at the outer end tag. -/
theorem c1_extract_block_balanced_nesting (u t : Chars) :
    extract_block u.length (u ++ (patC1 ++ t)) =
      .found (.block (u.length, u.length + 7) (u.length + 31, u.length + 42)) := by
  have h0 : sliceFrom (u ++ (patC1 ++ t)) u.length = some (patC1 ++ t) := by
    have h := sliceFrom_append u (show 0 ≤ patC1.length by decide) t
    simpa using h
  have h7 : strFind pctClose (patC1 ++ t) = some 7 := strFind_append (by decide) t
  have hfuel : (u ++ (patC1 ++ t)).length + 2 = u.length + t.length + 43 + 3 := by
    rw [List.length_append, List.length_append, patC1_length]
    omega
  unfold extract_block
  rw [h0, hfuel]
  simp only [h7]
  rw [show u.length + t.length + 43 + 3 = (u.length + t.length + 43 + 2) + 1 from rfl]
  rw [c1_loop_step1]
  rw [show u.length + t.length + 43 + 2 = (u.length + t.length + 43 + 1) + 1 from rfl]
  rw [c1_loop_step2]
  rw [show u.length + t.length + 43 + 1 = (u.length + t.length + 43) + 1 from rfl]
  rw [c1_loop_step3]
  have h37 : sliceFrom (u ++ (patC1 ++ t)) (u.length + 31 + 6) = some (patC1.drop 37 ++ t) := by
    rw [show u.length + 31 + 6 = u.length + 37 from rfl]
    exact sliceFrom_append u (by decide) t
  have h42 : strFind pctClose (patC1.drop 37 ++ t) = some 5 := strFind_append (by decide) t
  simp only [h37, h42]

/-- The input "\x7b\x7ba\x7b\x7bb\x7d\x7dc\x7d\x7d" (a balanced inline
shortcode containing a nested inline shortcode, 11 characters). -/
def c2Input : Chars := ("\x7b\x7ba\x7b\x7bb\x7d\x7dc\x7d\x7d").toList

/-- C2 (code bug): `find_shortcode` dispatches this input to
`extract_inline`, whose loop reaches `cur_start = 11` with the nesting
level still 1 and then slices `input[13..]` of the 11-character input —
an out-of-range slice, i.e. a Rust panic — contradicting the claim that
the scanner is total and only ever fails by returning `None`. -/
theorem c2_find_shortcode_panics : find_shortcode c2Input = .panicked := by decide

/-! Code-span scanning (claim C8). -/

/-- A successful `find_next_block` marks a genuine code span: the start
is the first backtick of the input, the span is nonempty, lies inside the
input, begins with a backtick and ends with the selected closing
delimiter. -/
theorem find_next_block_sound {s : Chars} {st en : Nat}
    (h : find_next_block s = some (st, en)) :
    strFind ['\x60'] s = some st ∧ st < en ∧ en ≤ s.length ∧
      (s.drop st).take 1 = ['\x60'] ∧
      (s.drop (en - (endDelimSel (s.drop (st + 1))).length)).take
        (endDelimSel (s.drop (st + 1))).length = endDelimSel (s.drop (st + 1)) := by
  unfold find_next_block at h
  cases htick : strFind ['\x60'] s with
  | none => rw [htick] at h; exact absurd h (by simp)
  | some start =>
    rw [htick] at h
    simp only at h
    cases hj : strFind (endDelimSel (s.drop (start + 1))) (s.drop (start + 1)) with
    | none => rw [hj] at h; exact absurd h (by simp)
    | some j =>
      rw [hj] at h
      simp only [Option.some.injEq, Prod.mk.injEq] at h
      obtain ⟨h1, h2⟩ := h
      subst h1
      subst h2
      have hdl : 1 ≤ (endDelimSel (s.drop (start + 1))).length := by
        unfold endDelimSel
        split <;> decide
      have htlen := strFind_le_length htick
      have hjlen := strFind_le_length hj
      rw [List.length_drop] at hjlen
      refine ⟨rfl, by omega, by omega, ?_, ?_⟩
      · have := strFind_take htick
        simpa using this
      · have hsub : start + 1 + j + (endDelimSel (s.drop (start + 1))).length -
            (endDelimSel (s.drop (start + 1))).length = start + 1 + j := by omega
        rw [hsub]
        have hjt := strFind_take hj
        rw [List.drop_drop] at hjt
        exact hjt

/-- The spans collected by the `find_all_blocks` loop start at or after
the running offset, are nonempty, and are chained: each span ends at or
before the next one starts. -/
theorem allBlocksLoop_sound (fuel : Nat) :
    ∀ (offset : Nat) (rest : Chars),
      (∀ p ∈ allBlocksLoop fuel offset rest, offset ≤ p.1 ∧ p.1 < p.2) ∧
        List.Chain' (fun a b : Nat × Nat => a.2 ≤ b.1) (allBlocksLoop fuel offset rest) := by
  induction fuel with
  | zero => intro offset rest; simp [allBlocksLoop]
  | succ fuel ih =>
    intro offset rest
    rw [allBlocksLoop]
    cases hnb : find_next_block rest with
    | none => simp
    | some p =>
      obtain ⟨st, en⟩ := p
      have hs := find_next_block_sound hnb
      obtain ⟨hm, hchain⟩ := ih (offset + en) (rest.drop en)
      constructor
      · intro p hp
        rcases List.mem_cons.mp hp with rfl | hp
        · exact ⟨by omega, by omega⟩
        · have := hm p hp
          exact ⟨by omega, this.2⟩
      · rw [List.chain'_cons']
        refine ⟨?_, hchain⟩
        intro b hb
        have hbm : b ∈ allBlocksLoop fuel (offset + en) (rest.drop en) :=
          List.mem_of_mem_head? hb
        have := hm b hbm
        omega

/-- C8 (amended): code-span detection scans for the next backtick; the
closing delimiter is the triple-backtick sequence only when strictly more
than two characters follow the opening backtick and the next two are
backticks, otherwise a single backtick closes it; every returned
`(start, end)` range is nonempty, lies inside the input, begins at the
first backtick and ends with the selected closing delimiter (fences
included); scanning repeats from the end of each span until no further
span is found, and the returned spans are pairwise non-overlapping and
listed in document order. -/
theorem c8_code_span_scanning (s : Chars) :
    List.Chain' (fun a b : Nat × Nat => a.2 ≤ b.1) (find_all_blocks s) ∧
      (∀ p ∈ find_all_blocks s, p.1 < p.2) ∧
      (∀ st en, find_next_block s = some (st, en) →
        strFind ['\x60'] s = some st ∧ st < en ∧ en ≤ s.length ∧
          (s.drop st).take 1 = ['\x60'] ∧
          (s.drop (en - (endDelimSel (s.drop (st + 1))).length)).take
            (endDelimSel (s.drop (st + 1))).length = endDelimSel (s.drop (st + 1))) := by
  obtain ⟨hm, hchain⟩ := allBlocksLoop_sound (s.length + 1) 0 s
  exact ⟨hchain, fun p hp => (hm p hp).2, fun st en h => find_next_block_sound h⟩

/-- The input "\x60\x60\x60" (three backticks and nothing else). -/
def c8Input : Chars := ['\x60', '\x60', '\x60']

/-- C8 (counterexample): on the input consisting of exactly three
backticks, the opening backtick is followed by two more backticks, so by
the claim the closing delimiter should be the triple-backtick sequence —
which does not occur in the remaining input, so no span should be
returned.  The code, however, demands strictly more than two remaining
characters before selecting the triple delimiter, falls back to the
single-backtick delimiter, and returns the span `(0, 2)`. -/
theorem c8_counterexample_triple_tick :
    find_next_block c8Input = some (0, 2) ∧
      (c8Input.drop 1).take 2 = ['\x60', '\x60'] ∧
      strFind ['\x60', '\x60', '\x60'] (c8Input.drop 1) = none := by decide

/-! The AST data model of src/cdoc/src/ast/mod.rs, the notebook cell
types and the element model of src/cdoc/src/document.rs.

The notebook cell and output types (`Cell`, `CellOutput`, `OutputValue`,
`StreamType`) are declared in the crate's notebook module, which is not
among the provided sources; they are modelled from the spec ("CellOutput /
OutputValue: notebook execution results attached to a CodeBlock: stream
text, rich data (one or more of plain text, base64 image, SVG, JSON, HTML,
JavaScript), or error") and from the fields the provided sources match on.
The `Argument` type of the parsers module is likewise modelled from the
spec ("each argument is either positional or named and its value is itself
a fully parsed nested AST fragment"). -/

/-- Heading level, from pulldown_cmark's `HeadingLevel` (H1-H6). -/
inductive HeadingLevel where
  | h1 | h2 | h3 | h4 | h5 | h6
deriving DecidableEq

/-- Modelled from the spec: pulldown_cmark's `LinkType` tag carried by
images and links; none of the renderers in the sources ever inspects it,
so it is collapsed to a single value. -/
inductive LinkTy where
  | mk
deriving DecidableEq

/-- Modelled from the spec: the stream name of a notebook stream output
(stdout or stderr), matched by the generic renderer. -/
inductive StreamType where
  | stdOut
  | stdErr
deriving DecidableEq

/-- `CodeOutput` rich-data value of a notebook cell output (called
`OutputValue` by the renderers).  The JSON variant's map payload is kept
in serialized form, since the renderers only ever pass it through
`serde_json::to_string`. -/
inductive OutputValue where
  | plain (lines : List String)
  | image (base64 : String)
  | svg (source : String)
  | json (serialized : String)
  | html (source : String)
  | javascript (source : String)
deriving DecidableEq

/-- Modelled from the spec: a notebook cell output — stream text, rich
data, or an error (only the fields the provided renderers read are
carried). -/
inductive CellOutput where
  | stream (text : String) (name : StreamType)
  | data (values : List OutputValue)
  | error (evalue : String)
deriving DecidableEq

/-- `CodeAttributes` of src/cdoc/src/ast/mod.rs. -/
structure CodeAttributes where
  editable : Bool
  fold : Bool
deriving DecidableEq

/-- Modelled from the spec: a shortcode argument, either positional or
keyword, carrying a fully parsed value. -/
inductive Argument (α : Type) where
  | positional (val : α)
  | keyword (key : String) (val : α)

mutual

/-- `Inline` of src/cdoc/src/ast/mod.rs. -/
inductive Inline where
  | text (s : String)
  | emphasis (inner : List Inline)
  | strong (inner : List Inline)
  | strikethrough (inner : List Inline)
  | code (s : String)
  | softBreak
  | hardBreak
  | rule
  | image (tp : LinkTy) (url : String) (alt : String) (inner : List Inline)
  | link (tp : LinkTy) (url : String) (alt : String) (inner : List Inline)
  | html (s : String)
  | math (source : String) (displayBlock : Bool) (trailingSpace : Bool)
  | shortcode (s : Shortcode)

/-- `Shortcode` of src/cdoc/src/ast/mod.rs. -/
inductive Shortcode where
  | inline (base : ShortcodeBase)
  | block (base : ShortcodeBase) (body : List Block)

/-- `ShortcodeBase` of src/cdoc/src/ast/mod.rs. -/
inductive ShortcodeBase where
  | mk (name : String) (id : Option String) (num : Nat)
      (parameters : List (Argument (List Block)))

/-- `Block` of src/cdoc/src/ast/mod.rs. -/
inductive Block where
  | heading (lvl : HeadingLevel) (id : Option String) (classes : List String)
      (inner : List Inline)
  | plain (inner : List Inline)
  | paragraph (inner : List Inline)
  | blockQuote (inner : List Inline)
  | codeBlock (source : String) (reference : Option String) (attr : CodeAttributes)
      (tags : Option (List String)) (outputs : List CellOutput)
  | list (start : Option Nat) (items : List Block)
  | listItem (inner : List Block)

end

/-- Name accessor of `ShortcodeBase`. -/
def ShortcodeBase.name : ShortcodeBase → String
  | .mk n _ _ _ => n

/-- Id accessor of `ShortcodeBase`. -/
def ShortcodeBase.id : ShortcodeBase → Option String
  | .mk _ i _ _ => i

/-- Num accessor of `ShortcodeBase`. -/
def ShortcodeBase.num : ShortcodeBase → Nat
  | .mk _ _ n _ => n

/-- Parameters accessor of `ShortcodeBase`. -/
def ShortcodeBase.parameters : ShortcodeBase → List (Argument (List Block))
  | .mk _ _ _ p => p

/-- `Element` of src/cdoc/src/document.rs. -/
inductive Element where
  | markdown (content : String)
  | code (cellNumber : Nat) (content : String) (output : Option (List CellOutput))
  | raw (content : String)
  | default

/-- The `From<Element> for Vec<Block>` conversion of
src/cdoc/src/document.rs (lines 85-113).  The markdown branch runs the
external pulldown_cmark parser and the event collector; that external
parse is the `parseMd` parameter (in Rust it is total: `collect` on the
parser cannot fail).  The source's `CodeBlock` struct literal does not
mention the `tags` field; it is taken as absent (`none`). -/
def elementToBlocks (parseMd : String → List Block) : Element → List Block
  | .markdown content => parseMd content
  | .code _ content output =>
    [Block.codeBlock content none ⟨true, false⟩ none (output.getD [])]
  | .raw _ => []
  | .default => []

/-- C3: the Element to Vec of Block conversion is a total function for
every Element: a Code element always produces exactly one CodeBlock whose
attributes are editable = true and fold = false, whose source is the
element's content verbatim and whose outputs equal the supplied outputs
verbatim (empty when none were supplied); Raw and Default elements produce
the empty block vector; Markdown elements produce whatever the external
markdown parse produces. -/
theorem c3_element_to_blocks_total (parseMd : String → List Block) :
    (∀ n content output,
      elementToBlocks parseMd (.code n content output) =
        [Block.codeBlock content none ⟨true, false⟩ none (output.getD [])] ∧
      (elementToBlocks parseMd (.code n content output)).length = 1) ∧
    (∀ content, elementToBlocks parseMd (.raw content) = []) ∧
    elementToBlocks parseMd .default = [] ∧
    (∀ content, elementToBlocks parseMd (.markdown content) = parseMd content) := by
  refine ⟨fun n content output => ⟨rfl, rfl⟩, fun content => rfl, rfl, fun content => rfl⟩

/-! Notebook-to-raw-content conversion (claim C7). -/

/-- Modelled from the spec: a notebook cell — markdown, code (with
outputs), or raw; only the fields read by the conversion in
src/cdoc/src/document.rs are carried. -/
inductive Cell where
  | markdown (source : String)
  | code (source : String) (outputs : List CellOutput)
  | raw (source : String)

/-- Modelled from the spec: a notebook is its list of cells. -/
structure Notebook where
  cells : List Cell

/-- One step of the numbering fold in `IntoRawContent for Notebook`
(src/cdoc/src/document.rs, lines 252-283): a code cell increments the
running counter, any other cell leaves it unchanged. -/
def cellNext (num : Nat) : Cell → Nat
  | .code _ _ => num + 1
  | _ => num

/-- The numbering fold of `IntoRawContent for Notebook`: each cell is
paired with the counter value after processing it. -/
def numberCells : Nat → List Cell → List (Nat × Cell)
  | _, [] => []
  | num, c :: rest => (cellNext num c, c) :: numberCells (cellNext num c) rest

/-- The mapping step of `IntoRawContent for Notebook`: a numbered cell
becomes an element; the paired counter value becomes the code element's
`cell_number`. -/
def cellToElement : Nat × Cell → Element
  | (_, .markdown src) => .markdown src
  | (i, .code src outputs) => .code i src (some outputs)
  | (_, .raw src) => .raw src

/-- `IntoRawContent for Notebook` (src/cdoc/src/document.rs, lines
252-283): fold with initial counter 1, then map to elements. -/
def notebookIntoRaw (nb : Notebook) : List Element :=
  (numberCells 1 nb.cells).map cellToElement

/-- The `cell_number` values of the Code elements, in order. -/
def codeCellNumbers : List Element → List Nat
  | [] => []
  | .code n _ _ :: rest => n :: codeCellNumbers rest
  | _ :: rest => codeCellNumbers rest

/-- Number of code cells in a cell list. -/
def countCodeCells : List Cell → Nat
  | [] => 0
  | .code _ _ :: rest => countCodeCells rest + 1
  | _ :: rest => countCodeCells rest

/-- The numbering fold assigns consecutive numbers `num+1, num+2, ...` to
the code cells, skipping nothing for non-code cells. -/
theorem codeCellNumbers_numberCells (cells : List Cell) :
    ∀ num, codeCellNumbers ((numberCells num cells).map cellToElement) =
      List.range' (num + 1) (countCodeCells cells) := by
  induction cells with
  | nil => intro num; rfl
  | cons c rest ih =>
    intro num
    cases c with
    | markdown src =>
      simp only [numberCells, cellNext, List.map_cons, cellToElement, codeCellNumbers,
        countCodeCells]
      exact ih num
    | raw src =>
      simp only [numberCells, cellNext, List.map_cons, cellToElement, codeCellNumbers,
        countCodeCells]
      exact ih num
    | code src outputs =>
      simp only [numberCells, cellNext, List.map_cons, cellToElement, codeCellNumbers,
        countCodeCells]
      rw [ih (num + 1)]
      rw [List.range'_succ]

/-- C7: converting a notebook to raw content assigns cell numbers
sequentially over code cells only — the resulting Code elements carry the
consecutive, strictly increasing numbers 2, 3, ..., k+1 (k the number of
code cells), regardless of how many Markdown or Raw cells appear between
them (the first code cell receives 2 because the fold starts at 1 and
pushes the incremented value). -/
theorem c7_notebook_code_cell_numbering (nb : Notebook) :
    codeCellNumbers (notebookIntoRaw nb) =
      List.range' 2 (countCodeCells nb.cells) ∧
    List.Pairwise (· < ·) (codeCellNumbers (notebookIntoRaw nb)) := by
  have h := codeCellNumbers_numberCells nb.cells 1
  refine ⟨h, ?_⟩
  rw [notebookIntoRaw, h]
  exact List.pairwise_lt_range' 2 (countCodeCells nb.cells)

/-! The process-wide id counter (claim C9). -/

/-- Number of values of a 64-bit `usize` (the `AtomicUsize` counter of
src/cdoc/src/renderers/generic.rs on a 64-bit target). -/
def W64 : Nat := 2 ^ 64

/-- `get_id` of src/cdoc/src/renderers/generic.rs (lines 351-355):
`COUNTER.fetch_add(1, Ordering::Relaxed)` returns the previous counter
value and stores the incremented value; `usize` arithmetic wraps. -/
def get_id (counter : Nat) : Nat × Nat :=
  (counter, (counter + 1) % W64)

/-- The values handed out by `n` successive `get_id` allocations starting
from counter state `counter`.  Since `fetch_add` is an atomic
read-modify-write, every concurrent execution of `n` allocations
linearizes to such a sequence. -/
def idAllocs : Nat → Nat → List Nat
  | _, 0 => []
  | counter, n + 1 => (get_id counter).1 :: idAllocs (get_id counter).2 n

/-- An `n`-allocation run hands out exactly `n` values. -/
theorem idAllocs_length : ∀ (n c : Nat), (idAllocs c n).length = n := by
  intro n
  induction n with
  | zero => intro c; rfl
  | succ n ih => intro c; simp [idAllocs, ih]

/-- Value of the `k`-th of `n` allocations: the start counter plus `k`,
wrapped. -/
theorem idAllocs_getElem :
    ∀ (n : Nat) (c k : Nat), c < W64 → k < n →
      (idAllocs c n)[k]? = some ((c + k) % W64) := by
  intro n
  induction n with
  | zero => intro c k _ hk; omega
  | succ n ih =>
    intro c k hc hk
    cases k with
    | zero =>
      simp [idAllocs, get_id, Nat.mod_eq_of_lt hc]
    | succ k =>
      have hc1 : (c + 1) % W64 < W64 := Nat.mod_lt _ (by decide)
      have := ih ((c + 1) % W64) k hc1 (by omega)
      simp only [idAllocs, get_id, List.getElem?_cons_succ]
      rw [this]
      congr 1
      rw [Nat.mod_add_mod]
      congr 1
      omega

/-- When no more than `W64` values are requested and the counter cannot
wrap, the allocations are literally the consecutive integers. -/
theorem idAllocs_eq_range' :
    ∀ (n c : Nat), c + n ≤ W64 → idAllocs c n = List.range' c n := by
  intro n
  induction n with
  | zero => intro c _; rfl
  | succ n ih =>
    intro c hc
    rw [idAllocs, List.range'_succ]
    simp only [get_id]
    cases n with
    | zero => rfl
    | succ n =>
      have hmod : (c + 1) % W64 = c + 1 := Nat.mod_eq_of_lt (by omega)
      rw [hmod]
      congr 1
      exact ih (c + 1) (by omega)

/-- C9 (counterexample): after `2^64` allocations the 64-bit counter has
wrapped back to its start, so allocation number `2^64` (zero-based) hands
out the same value, 1, as allocation number 0 — issuing `N = 2^64 + 1`
allocations does not yield `N` distinct values, contradicting the claim's
"for every N ... no duplicates permitted" (and "never issued"). -/
theorem c9_counterexample_wraparound :
    (idAllocs 1 (W64 + 1))[0]? = some 1 ∧
      (idAllocs 1 (W64 + 1))[W64]? = some 1 ∧
      (0 : Nat) ≠ W64 ∧
      ¬(idAllocs 1 (W64 + 1)).Nodup := by
  have h0 : (idAllocs 1 (W64 + 1))[0]? = some 1 := by
    rw [idAllocs_getElem (W64 + 1) 1 0 (by decide) (by omega)]
    decide
  have hW : (idAllocs 1 (W64 + 1))[W64]? = some 1 := by
    rw [idAllocs_getElem (W64 + 1) 1 W64 (by decide) (by omega)]
    decide
  refine ⟨h0, hW, by decide, ?_⟩
  intro hnodup
  have : (0 : Nat) = W64 := by
    apply @List.getElem?_inj _ 0 W64 (idAllocs 1 (W64 + 1)) ?_ hnodup (h0.trans hW.symm)
    rw [idAllocs_length]
    omega
  exact absurd this (by decide)

/-- C9 (amended): starting from the counter's initial value 1, any number
`N` of at most `2^64 - 1` allocations (sequential, or any linearization of
concurrent atomic `fetch_add` calls) yields the consecutive values
1, 2, ..., N — pairwise distinct and strictly increasing; beyond that the
64-bit counter wraps and values repeat. -/
theorem c9_id_allocation_distinct (n : Nat) (hn : n ≤ W64 - 1) :
    idAllocs 1 n = List.range' 1 n ∧
      List.Pairwise (· < ·) (idAllocs 1 n) ∧
      (idAllocs 1 n).Nodup ∧
      (idAllocs 1 n).length = n := by
  have heq : idAllocs 1 n = List.range' 1 n := by
    apply idAllocs_eq_range'
    have : (0 : Nat) < W64 := by decide
    omega
  refine ⟨heq, ?_, ?_, ?_⟩
  · rw [heq]; exact List.pairwise_lt_range' 1 n
  · rw [heq]; exact List.nodup_range' 1 n
  · rw [idAllocs_length]

/-- C9 witness: three allocations from the initial counter yield 1, 2, 3 —
distinct and strictly increasing. -/
theorem c9_id_allocation_distinct_witness :
    idAllocs 1 3 = List.range' 1 3 ∧
      List.Pairwise (· < ·) (idAllocs 1 3) ∧
      (idAllocs 1 3).Nodup ∧
      (idAllocs 1 3).length = 3 :=
  c9_id_allocation_distinct 3 (by decide)

/-! The LaTeX renderer of src/cdoc/src/renderers/latex.rs (claim C10).
That file's `Inline` has exactly the variants its `match` enumerates:
Text, Emphasis, Strong, Strikethrough, Code, SoftBreak, HardBreak, Rule,
Image, Link, Html; it is declared here separately from the main AST
because it is a different revision of the type (no Math, no Shortcode).
Rendering a vector of inlines concatenates the rendered children
(modelled from the spec: children are rendered recursively in order and
the results joined); template rendering is the opaque `tera` service. -/

namespace Ltx

mutual

/-- The latex.rs revision of `Inline`. -/
inductive Inline where
  | text (s : String)
  | emphasis (inner : List Inline)
  | strong (inner : List Inline)
  | strikethrough (inner : List Inline)
  | code (s : String)
  | softBreak
  | hardBreak
  | rule
  | image (tp : LinkTy) (url : String) (alt : String) (inner : List Inline)
  | link (tp : LinkTy) (url : String) (alt : String) (inner : List Inline)
  | html (s : String)

end

/-- Template service for the LaTeX renderer: template name and context
to rendered text (`none` models a tera error). -/
abbrev Tera := String → List (String × String) → Option String

mutual

/-- `RenderElement<ToLaTeXContext> for Inline` of
src/cdoc/src/renderers/latex.rs (lines 36-71).  The Strong and
Strikethrough variants share one match arm producing textbf. -/
def inlineLtx (tera : Tera) : Nat → Inline → Option String
  | 0, _ => none
  | fuel + 1, node =>
    match node with
    | .text s => some s
    | .emphasis inner =>
      (inlinesLtx tera fuel inner).map (fun r => "\\emph\x7b" ++ r ++ "\x7d")
    | .strong inner =>
      (inlinesLtx tera fuel inner).map (fun r => "\\textbf\x7b" ++ r ++ "\x7d")
    | .strikethrough inner =>
      (inlinesLtx tera fuel inner).map (fun r => "\\textbf\x7b" ++ r ++ "\x7d")
    | .code s => some ("\\lstinline! " ++ s ++ " !")
    | .softBreak => some "\n"
    | .hardBreak => some "\n\\\\\n"
    | .rule => some "\\hrule"
    | .image _ url alt inner =>
      (inlinesLtx tera fuel inner).bind (fun r =>
        tera "latex/image.tera.tex" [("url", url), ("alt", alt), ("inner", r)])
    | .link _ url alt inner =>
      (inlinesLtx tera fuel inner).bind (fun r =>
        tera "latex/link.tera.tex" [("url", url), ("alt", alt), ("inner", r)])
    | .html s => some s

/-- Rendering of a vector of inlines: children in order, results
concatenated. -/
def inlinesLtx (tera : Tera) : Nat → List Inline → Option String
  | 0, _ => none
  | _ + 1, [] => some ""
  | fuel + 1, i :: rest => do
    let a ← inlineLtx tera fuel i
    let b ← inlinesLtx tera fuel rest
    some (a ++ b)

end

end Ltx

/-- C10: in the LaTeX renderer, Strikethrough is rendered identically to
Strong — for every inline child sequence (and every template service and
every fuel amount) both variants produce textbf wrapped around the
rendered children, so strikethrough content is indistinguishable from
bold content in LaTeX output. -/
theorem c10_latex_strikethrough_is_strong (tera : Ltx.Tera) (fuel : Nat)
    (inner : List Ltx.Inline) :
    Ltx.inlineLtx tera fuel (.strikethrough inner) =
      Ltx.inlineLtx tera fuel (.strong inner) ∧
    Ltx.inlineLtx tera (fuel + 1) (.strong inner) =
      (Ltx.inlinesLtx tera fuel inner).map (fun r => "\\textbf\x7b" ++ r ++ "\x7d") := by
  constructor
  · cases fuel with
    | zero => rfl
    | succ fuel => simp [Ltx.inlineLtx]
  · simp [Ltx.inlineLtx]

/-! The markdown round-trip renderer of src/cdoc/src/renderers/markdown.rs
(claim C5).  That file's AST revision differs from the main one: `Inline`
has a one-field Math and no Shortcode variant; `Block` additionally has
Math and Shortcode variants, and shortcode parameters are a map from
names to block vectors (modelled as an association list).  The renderer
threads the mutable `ToMarkdownContext` — of which only `list_idx` and
`list_lvl` are mutated — through every call; the template engine and the
cloned base tera context are opaque parameters. -/

namespace Md

mutual

/-- The markdown.rs revision of `Inline`. -/
inductive Inline where
  | text (s : String)
  | emphasis (inner : List Inline)
  | strong (inner : List Inline)
  | strikethrough (inner : List Inline)
  | code (s : String)
  | softBreak
  | hardBreak
  | rule
  | image (tp : LinkTy) (url : String) (title : String) (inner : List Inline)
  | link (tp : LinkTy) (url : String) (title : String) (inner : List Inline)
  | html (s : String)
  | math (s : String)

/-- The markdown.rs revision of `Block`.  The code-block fields other
than `source` are not read by this renderer and are omitted. -/
inductive Block where
  | heading (lvl : Nat) (id : Option String) (classes : List String) (inner : List Inline)
  | plain (inner : List Inline)
  | paragraph (inner : List Inline)
  | blockQuote (inner : List Inline)
  | codeBlock (source : String)
  | list (start : Option Nat) (items : List Block)
  | listItem (inner : List Block)
  | math (source : String) (displayBlock : Bool) (trailingSpace : Bool)
  | shortcode (s : Shortcode)

/-- The markdown.rs revision of `Shortcode`. -/
inductive Shortcode where
  | inline (base : ShortcodeBase)
  | block (base : ShortcodeBase) (body : List Block)

/-- The markdown.rs revision of `ShortcodeBase`: parameters are a map
from parameter names to block vectors. -/
inductive ShortcodeBase where
  | mk (name : String) (id : Option String) (num : Nat)
      (parameters : List (String × List Block))

end

/-- The mutable render-scoped state of `ToMarkdownContext`
(src/cdoc/src/renderers/markdown.rs, lines 39-47): current ordinal and
current nesting depth. -/
structure MdCtx where
  listIdx : Option Nat
  listLvl : Nat
deriving DecidableEq

/-- The read-only parts of `ToMarkdownContext`: the tera template engine
(opaque, `none` models a render error), the cloned base tera context, and
the serialized id maps that `add_args` inserts. -/
structure MdSvc where
  tera : String → List (String × String) → Option String
  teraContext : List (String × String)
  idsSer : String
  idsMapSer : String

/-- Serialization of the `idx` value inserted into the list-item
template context (an Option is serialized as the value or null). -/
def optIdxStr : Option Nat → String
  | none => "null"
  | some n => toString n

/-- Modelled from the spec: `add_args` of the renderers module (not among
the provided sources) — inserts the shortcode's id (when present), its
num, the document id maps and every rendered argument into the template
context. -/
def addArgsMd (ctx : List (String × String)) (id : Option String) (num : Nat)
    (ids idsMap : String) (params : List (String × String)) : List (String × String) :=
  ctx ++ (match id with | some i => [("id", i)] | none => []) ++
    [("num", toString num), ("ids", ids), ("id_map", idsMap)] ++ params

/-- Repeated-character strings used by the renderer ("#".repeat and
"\t".repeat). -/
def repChar (c : Char) (n : Nat) : String :=
  String.mk (List.replicate n c)

/-- `math_block_md` of src/cdoc/src/ast/mod.rs (lines 161-165). -/
def math_block_md (src : String) (displayBlock trailingSpace : Bool) : String :=
  (if displayBlock then "$$" else "$") ++ src ++ (if displayBlock then "$$" else "$") ++
    (if trailingSpace then " " else "")

mutual

/-- `ToMarkdown for Inline` (src/cdoc/src/renderers/markdown.rs, lines
65-82).  No arm mutates the context, but the context is threaded
faithfully. -/
def inlineMd (svc : MdSvc) : Nat → Inline → MdCtx → Option (String × MdCtx)
  | 0, _, _ => none
  | fuel + 1, node, c =>
    match node with
    | .text s => some (s, c)
    | .emphasis i =>
      (inlinesMd svc fuel i c).map (fun p => ("*" ++ p.1 ++ "*", p.2))
    | .strong i =>
      (inlinesMd svc fuel i c).map (fun p => ("**" ++ p.1 ++ "**", p.2))
    | .strikethrough i =>
      (inlinesMd svc fuel i c).map (fun p => ("~~" ++ p.1 ++ "~~", p.2))
    | .code s => some ("\x60" ++ s ++ "\x60", c)
    | .softBreak => some ("\n", c)
    | .hardBreak => some ("\n\n", c)
    | .rule => some ("---\n", c)
    | .image _ url title _ => some ("![" ++ title ++ "](" ++ url ++ ")", c)
    | .link _ url title _ => some ("[" ++ title ++ "](" ++ url ++ ")", c)
    | .html s => some (s, c)
    | .math s => some ("$" ++ s ++ "$", c)

/-- `ToMarkdown for Vec<Inline>`: children in order, results
concatenated, context threaded left to right. -/
def inlinesMd (svc : MdSvc) : Nat → List Inline → MdCtx → Option (String × MdCtx)
  | 0, _, _ => none
  | _ + 1, [], c => some ("", c)
  | fuel + 1, i :: rest, c => do
    let (a, c1) ← inlineMd svc fuel i c
    let (b, c2) ← inlinesMd svc fuel rest c1
    some (a ++ b, c2)

/-- `ToMarkdown for Block` (src/cdoc/src/renderers/markdown.rs, lines
84-148).  The List arm increments `list_lvl`, overwrites `list_idx`
(None for unordered, Some 1 for ordered), renders the items, and
decrements `list_lvl` afterwards — on the success path only, and without
restoring `list_idx`.  The ListItem arm inserts the current `list_idx`
into the item context, then advances it, renders the children, and
indents by `list_lvl - 1` tabs. -/
def blockMd (svc : MdSvc) : Nat → Block → MdCtx → Option (String × MdCtx)
  | 0, _, _ => none
  | fuel + 1, node, c =>
    match node with
    | .heading lvl _ _ inner =>
      (inlinesMd svc fuel inner c).map (fun p =>
        (repChar '#' lvl ++ " " ++ p.1 ++ "\n", p.2))
    | .plain i => inlinesMd svc fuel i c
    | .paragraph i =>
      (inlinesMd svc fuel i c).map (fun p => (p.1 ++ "\n", p.2))
    | .blockQuote i => inlinesMd svc fuel i c
    | .codeBlock source =>
      some ("\x60\x60\x60\n" ++ source ++ "\n\x60\x60\x60", c)
    | .list idx items =>
      let cUp : MdCtx := { c with listLvl := c.listLvl + 1 }
      match idx with
      | none => do
        let (inner, c2) ← blocksMd svc fuel items { cUp with listIdx := none }
        let rendered ← svc.tera "builtins/md/list_unordered.tera.md" [("value", inner)]
        some ("\n" ++ rendered ++ "\n", { c2 with listLvl := c2.listLvl - 1 })
      | some start => do
        let (inner, c2) ← blocksMd svc fuel items { cUp with listIdx := some 1 }
        let rendered ← svc.tera "builtins/md/list_ordered.tera.md"
          [("start", toString start), ("value", inner)]
        some ("\n" ++ rendered ++ "\n", { c2 with listLvl := c2.listLvl - 1 })
    | .listItem inner => do
      let idxVal := optIdxStr c.listIdx
      let cAdv : MdCtx := { c with listIdx := c.listIdx.map (· + 1) }
      let (v, c2) ← blocksMd svc fuel inner cAdv
      let rendered ← svc.tera "builtins/md/list_item.tera.md"
        [("idx", idxVal), ("value", v)]
      some (repChar '\t' (c2.listLvl - 1) ++ rendered ++ "\n", c2)
    | .math s displayBlock trailingSpace =>
      some (math_block_md s displayBlock trailingSpace, c)
    | .shortcode s => shortcodeMd svc fuel s c

/-- `ToMarkdown for Vec<Block>`. -/
def blocksMd (svc : MdSvc) : Nat → List Block → MdCtx → Option (String × MdCtx)
  | 0, _, _ => none
  | _ + 1, [], c => some ("", c)
  | fuel + 1, b :: rest, c => do
    let (a, c1) ← blockMd svc fuel b c
    let (b2, c2) ← blocksMd svc fuel rest c1
    some (a ++ b2, c2)

/-- `render_params` (src/cdoc/src/renderers/markdown.rs, lines 150-158):
each parameter's block vector is rendered and trimmed. -/
def paramsMd (svc : MdSvc) : Nat → List (String × List Block) → MdCtx →
    Option (List (String × String) × MdCtx)
  | 0, _, _ => none
  | _ + 1, [], c => some ([], c)
  | fuel + 1, (k, v) :: rest, c => do
    let (r, c1) ← blocksMd svc fuel v c
    let (rs, c2) ← paramsMd svc fuel rest c1
    some ((k, r.trim) :: rs, c2)

/-- `render_shortcode_template` (src/cdoc/src/renderers/markdown.rs,
lines 160-179). -/
def shortcodeMd (svc : MdSvc) : Nat → Shortcode → MdCtx → Option (String × MdCtx)
  | 0, _, _ => none
  | fuel + 1, sc, c =>
    match sc with
    | .inline (.mk name id num params) => do
      let tname := "shortcodes/md/" ++ name ++ ".tera.md"
      let (p, c1) ← paramsMd svc fuel params c
      let ctx1 := addArgsMd svc.teraContext id num svc.idsSer svc.idsMapSer p
      let rendered ← svc.tera tname ctx1
      some (rendered, c1)
    | .block (.mk name id num params) body => do
      let tname := "shortcodes/md/" ++ name ++ ".tera.md"
      let (p, c1) ← paramsMd svc fuel params c
      let ctx1 := addArgsMd svc.teraContext id num svc.idsSer svc.idsMapSer p
      let (bodyR, c2) ← blocksMd svc fuel body c1
      let rendered ← svc.tera tname (ctx1 ++ [("body", bodyR)])
      some (rendered ++ "\n\n", c2)

end

/-- On every successful render, `list_lvl` returns to the value it had
before the call: the List arm is the only mutator and it decrements what
it incremented, and all other arms thread the state through their
children.  Proved for all six mutually recursive render functions at
once, by induction on the fuel. -/
theorem mdLvlPreserved (svc : MdSvc) : ∀ fuel : Nat,
    (∀ i c p, inlineMd svc fuel i c = some p → p.2.listLvl = c.listLvl) ∧
    (∀ is c p, inlinesMd svc fuel is c = some p → p.2.listLvl = c.listLvl) ∧
    (∀ b c p, blockMd svc fuel b c = some p → p.2.listLvl = c.listLvl) ∧
    (∀ bs c p, blocksMd svc fuel bs c = some p → p.2.listLvl = c.listLvl) ∧
    (∀ ps c p, paramsMd svc fuel ps c = some p → p.2.listLvl = c.listLvl) ∧
    (∀ sc c p, shortcodeMd svc fuel sc c = some p → p.2.listLvl = c.listLvl) := by
  intro fuel
  induction fuel with
  | zero =>
    refine ⟨?_, ?_, ?_, ?_, ?_, ?_⟩ <;> intro x c p h <;> simp [inlineMd, inlinesMd,
      blockMd, blocksMd, paramsMd, shortcodeMd] at h
  | succ fuel ih =>
    obtain ⟨ihInline, ihInlines, ihBlock, ihBlocks, ihParams, ihShort⟩ := ih
    have hInline : ∀ i c p, inlineMd svc (fuel + 1) i c = some p → p.2.listLvl = c.listLvl := by
      intro i c p h
      cases i with
      | emphasis inner | strong inner | strikethrough inner =>
        simp only [inlineMd] at h
        rcases Option.map_eq_some'.mp h with ⟨q, hq, rfl⟩
        simpa using ihInlines _ _ _ hq
      | _ =>
        simp only [inlineMd, Option.some.injEq] at h
        subst h
        rfl
    have hInlines : ∀ is c p, inlinesMd svc (fuel + 1) is c = some p →
        p.2.listLvl = c.listLvl := by
      intro is c p h
      cases is with
      | nil =>
        simp only [inlinesMd, Option.some.injEq] at h
        subst h
        rfl
      | cons i rest =>
        simp only [inlinesMd, Option.bind_eq_bind, Option.bind_eq_some] at h
        obtain ⟨⟨a, c1⟩, h1, h⟩ := h
        obtain ⟨⟨b, c2⟩, h2, h⟩ := h
        simp only [Option.some.injEq] at h
        subst h
        have e1 := ihInline _ _ _ h1
        have e2 := ihInlines _ _ _ h2
        simp only at e1 e2 ⊢
        omega
    have hParams : ∀ ps c p, paramsMd svc (fuel + 1) ps c = some p →
        p.2.listLvl = c.listLvl := by
      intro ps c p h
      cases ps with
      | nil =>
        simp only [paramsMd, Option.some.injEq] at h
        subst h
        rfl
      | cons kv rest =>
        obtain ⟨k, v⟩ := kv
        simp only [paramsMd, Option.bind_eq_bind, Option.bind_eq_some] at h
        obtain ⟨⟨r, c1⟩, h1, h⟩ := h
        obtain ⟨⟨rs, c2⟩, h2, h⟩ := h
        simp only [Option.some.injEq] at h
        subst h
        have e1 := ihBlocks _ _ _ h1
        have e2 := ihParams _ _ _ h2
        simp only at e1 e2 ⊢
        omega
    have hShort : ∀ sc c p, shortcodeMd svc (fuel + 1) sc c = some p →
        p.2.listLvl = c.listLvl := by
      intro sc c p h
      cases sc with
      | inline base =>
        obtain ⟨name, id, num, params⟩ := base
        simp only [shortcodeMd, Option.bind_eq_bind, Option.bind_eq_some] at h
        obtain ⟨⟨pr, c1⟩, h1, h⟩ := h
        obtain ⟨rendered, h2, h⟩ := h
        simp only [Option.some.injEq] at h
        subst h
        simpa using ihParams _ _ _ h1
      | block base body =>
        obtain ⟨name, id, num, params⟩ := base
        simp only [shortcodeMd, Option.bind_eq_bind, Option.bind_eq_some] at h
        obtain ⟨⟨pr, c1⟩, h1, h⟩ := h
        obtain ⟨⟨bodyR, c2⟩, h2, h⟩ := h
        obtain ⟨rendered, h3, h⟩ := h
        simp only [Option.some.injEq] at h
        subst h
        have e1 := ihParams _ _ _ h1
        have e2 := ihBlocks _ _ _ h2
        simp only at e1 e2 ⊢
        omega
    have hBlock : ∀ b c p, blockMd svc (fuel + 1) b c = some p → p.2.listLvl = c.listLvl := by
      intro b c p h
      cases b with
      | heading lvl id classes inner =>
        simp only [blockMd] at h
        rcases Option.map_eq_some'.mp h with ⟨q, hq, rfl⟩
        simpa using ihInlines _ _ _ hq
      | plain i =>
        simp only [blockMd] at h
        exact ihInlines _ _ _ h
      | paragraph i =>
        simp only [blockMd] at h
        rcases Option.map_eq_some'.mp h with ⟨q, hq, rfl⟩
        simpa using ihInlines _ _ _ hq
      | blockQuote i =>
        simp only [blockMd] at h
        exact ihInlines _ _ _ h
      | codeBlock source =>
        simp only [blockMd, Option.some.injEq] at h
        subst h
        rfl
      | list idx items =>
        cases idx with
        | none =>
          simp only [blockMd, Option.bind_eq_bind, Option.bind_eq_some] at h
          obtain ⟨⟨inner, c2⟩, h1, h⟩ := h
          obtain ⟨rendered, h2, h⟩ := h
          simp only [Option.some.injEq] at h
          subst h
          have e1 := ihBlocks _ _ _ h1
          simp only at e1 ⊢
          omega
        | some start =>
          simp only [blockMd, Option.bind_eq_bind, Option.bind_eq_some] at h
          obtain ⟨⟨inner, c2⟩, h1, h⟩ := h
          obtain ⟨rendered, h2, h⟩ := h
          simp only [Option.some.injEq] at h
          subst h
          have e1 := ihBlocks _ _ _ h1
          simp only at e1 ⊢
          omega
      | listItem inner =>
        simp only [blockMd, Option.bind_eq_bind, Option.bind_eq_some] at h
        obtain ⟨⟨v, c2⟩, h1, h⟩ := h
        obtain ⟨rendered, h2, h⟩ := h
        simp only [Option.some.injEq] at h
        subst h
        have e1 := ihBlocks _ _ _ h1
        simp only at e1 ⊢
        omega
      | math s d t =>
        simp only [blockMd, Option.some.injEq] at h
        subst h
        rfl
      | shortcode s =>
        simp only [blockMd] at h
        exact ihShort _ _ _ h
    have hBlocks : ∀ bs c p, blocksMd svc (fuel + 1) bs c = some p →
        p.2.listLvl = c.listLvl := by
      intro bs c p h
      cases bs with
      | nil =>
        simp only [blocksMd, Option.some.injEq] at h
        subst h
        rfl
      | cons b rest =>
        simp only [blocksMd, Option.bind_eq_bind, Option.bind_eq_some] at h
        obtain ⟨⟨a, c1⟩, h1, h⟩ := h
        obtain ⟨⟨b2, c2⟩, h2, h⟩ := h
        simp only [Option.some.injEq] at h
        subst h
        have e1 := ihBlock _ _ _ h1
        have e2 := ihBlocks _ _ _ h2
        simp only at e1 e2 ⊢
        omega
    exact ⟨hInline, hInlines, hBlock, hBlocks, hParams, hShort⟩

end Md

/-- A template service whose every template renders to "T". -/
def mdSvcT : Md.MdSvc :=
  { tera := fun _ _ => some "T", teraContext := [], idsSer := "", idsMapSer := "" }

/-- C5 (counterexample): rendering the empty unordered list from a
context in which `list_idx` is `some 5` succeeds and leaves `list_idx` at
`none` — the value the List arm overwrote it with — not at the `some 5`
it held immediately before the call, refuting the claim that both
`list_idx` and `list_lvl` are restored after each list finishes. -/
theorem c5_counterexample_list_idx_not_restored :
    Md.blockMd mdSvcT 2 (.list none []) ⟨some 5, 0⟩ = some ("\nT\n", ⟨none, 0⟩) ∧
      (Md.MdCtx.mk none 0).listIdx ≠ (Md.MdCtx.mk (some 5) 0).listIdx := by
  constructor
  · rfl
  · simp

/-- C5 (amended): for every `Block::List` node, every template service
and every context, when `to_markdown` on that node returns successfully,
`list_lvl` equals the value it held immediately before the call;
`list_idx` is not restored — it keeps the value the list render left
behind (`None` after an unordered list, the advanced ordinal after an
ordered one). -/
theorem c5_list_lvl_restored (svc : Md.MdSvc) (fuel : Nat) (start : Option Nat)
    (items : List Md.Block) (c : Md.MdCtx) (p : String × Md.MdCtx)
    (h : Md.blockMd svc fuel (.list start items) c = some p) :
    p.2.listLvl = c.listLvl :=
  (Md.mdLvlPreserved svc fuel).2.2.1 _ c p h

/-- C5 witness: the amended theorem applied to a concrete successful
list render (the level before and after is 0). -/
theorem c5_list_lvl_restored_witness :
    (("\nT\n", Md.MdCtx.mk none 0) : String × Md.MdCtx).2.listLvl =
      (Md.MdCtx.mk (some 5) 0).listLvl :=
  c5_list_lvl_restored mdSvcT 2 none [] ⟨some 5, 0⟩ ("\nT\n", ⟨none, 0⟩) rfl

/-! The templated (generic) renderer of src/cdoc/src/renderers/generic.rs
(claims C4 and C6).  It renders the main AST revision declared above.
The template service (lookup, argument validation, rendering), the
syntax-highlighting call and the serialized context values are opaque
parameters bundled in `GenSvc`; rendering threads the process-wide id
counter explicitly.  Errors are Rust `anyhow::Result` errors, modelled as
`Except String`; the distinguished error string "fuelOut" marks fuel
exhaustion of the bounded embedding (never reached with enough fuel). -/

namespace Gen

/-- `TemplateType` of the templates module: builtin or shortcode. -/
inductive TemplateType where
  | builtin
  | shortcode
deriving DecidableEq

/-- Template definition as read by `add_args`: the declared positional
parameter names of the shortcode, when the template declares a
shortcode section (`def.shortcode` in the source). -/
structure TemplateDefinition where
  shortcodeParams : Option (List String)
deriving DecidableEq

/-- The template lookup/validation/render capability and the read-only
render-context values of `RenderContext`.  `validate` collapses
`validate_args_for_template` and the collection of its per-argument
results into one call; `highlight` is the syntect highlighting of a code
source (including the unwrap on the syntax lookup); the id maps and the
template definitions are carried in serialized form, as they are only
ever inserted into template contexts. -/
structure GenSvc where
  format : String
  validate : String → List (Argument String) → Except String Unit
  getTemplate : String → TemplateType → Except String TemplateDefinition
  renderTpl : String → String → TemplateType → List (String × String) → Except String String
  extraArgs : List (String × String)
  defsSer : String
  idsSer : String
  idsMapSer : String
  interactive : Bool
  cellOutputs : Bool
  editable : Bool
  highlight : String → Except String String

/-- Explicit bind on `Except String`, used instead of do-notation so that
proofs can rewrite step by step. -/
def eBind {α β : Type} (x : Except String α) (f : α → Except String β) : Except String β :=
  match x with
  | .error e => .error e
  | .ok a => f a

theorem eBind_ok {α β : Type} (a : α) (f : α → Except String β) : eBind (.ok a) f = f a := rfl

theorem eBind_error {α β : Type} (e : String) (f : α → Except String β) :
    eBind (.error e) f = .error e := rfl

/-- Serialization of a boolean context value. -/
def bstr (b : Bool) : String := if b then "true" else "false"

/-- Serialization of the optional tag list inserted into the cell
template context. -/
def tagsSer : Option (List String) → String
  | none => "null"
  | some ts => String.intercalate "," ts

/-- `header_lvl_to_int` of src/cdoc/src/renderers/generic.rs (lines
230-239). -/
def headerLvlToInt : HeadingLevel → Nat
  | .h1 => 1
  | .h2 => 2
  | .h3 => 3
  | .h4 => 4
  | .h5 => 5
  | .h6 => 6

/-- `render_value_template` of src/cdoc/src/renderers/generic.rs (lines
339-349): render the named template with a context holding only
"value". -/
def renderValueTemplate (svc : GenSvc) (name : String) (tp : TemplateType)
    (value : String) : Except String String :=
  svc.renderTpl name svc.format tp [("value", value)]

/-- `render_basic_template` of src/cdoc/src/renderers/generic.rs (lines
329-337): render the named template with an empty context. -/
def renderBasicTemplate (svc : GenSvc) (name : String) (tp : TemplateType) :
    Except String String :=
  svc.renderTpl name svc.format tp []

/-- `render_image` of src/cdoc/src/renderers/generic.rs (lines 384-397). -/
def renderImage (svc : GenSvc) (url alt inner : String) : Except String String :=
  svc.renderTpl "image" svc.format .builtin [("url", url), ("alt", alt), ("inner", inner)]

/-- `render_link` of src/cdoc/src/renderers/generic.rs (lines 399-412). -/
def renderLink (svc : GenSvc) (url alt inner : String) : Except String String :=
  svc.renderTpl "link" svc.format .builtin [("url", url), ("alt", alt), ("inner", inner)]

/-- `render_math` of src/cdoc/src/renderers/generic.rs (lines 414-427). -/
def renderMath (svc : GenSvc) (displayMode trailingSpace : Bool) (inner : String) :
    Except String String :=
  svc.renderTpl "math" svc.format .builtin
    [("display_mode", bstr displayMode), ("trailing_space", bstr trailingSpace),
      ("value", inner)]

/-- The argument loop of `add_args` (src/cdoc/src/renderers/generic.rs,
lines 372-380): a positional argument is inserted under the declared
parameter name at its index — `def.shortcode.as_ref().unwrap()` and the
index access panic when the template declares no shortcode section or
fewer parameters (modelled as errors); a keyword argument is inserted
under its own key. -/
def addArgsLoop (tdef : TemplateDefinition) : Nat → List (Argument String) →
    Except String (List (String × String))
  | _, [] => .ok []
  | i, .positional v :: rest =>
    match tdef.shortcodeParams with
    | none => .error "panicked: template declares no shortcode parameters"
    | some ps =>
      match ps[i]? with
      | none => .error "panicked: positional argument index out of bounds"
      | some pname => (addArgsLoop tdef (i + 1) rest).map (fun l => (pname, v) :: l)
  | i, .keyword k v :: rest =>
    (addArgsLoop tdef (i + 1) rest).map (fun l => (k, v) :: l)

/-- `add_args` of src/cdoc/src/renderers/generic.rs (lines 357-382):
inserts the shortcode's id (when present), num, the id maps and every
rendered argument into the template context. -/
def addArgs (tdef : TemplateDefinition) (args : List (String × String)) (id : Option String)
    (num : Nat) (ids idsMap : String) (arguments : List (Argument String)) :
    Except String (List (String × String)) :=
  (addArgsLoop tdef 0 arguments).map (fun l =>
    args ++ (match id with | some i => [("id", i)] | none => []) ++
      [("num", toString num), ("ids", ids), ("id_map", idsMap)] ++ l)

mutual

/-- `RenderElement<Inline> for GenericRenderer`
(src/cdoc/src/renderers/generic.rs, lines 123-180). -/
def genInline (svc : GenSvc) : Nat → Inline → Nat → Except String (String × Nat)
  | 0, _, _ => .error "fuelOut"
  | fuel + 1, node, cnt =>
    match node with
    | .text s => .ok (s, cnt)
    | .emphasis inner =>
      eBind (genInlines svc fuel inner cnt) (fun p =>
        eBind (renderValueTemplate svc "emphasis" .builtin p.1) (fun out => .ok (out, p.2)))
    | .strong inner =>
      eBind (genInlines svc fuel inner cnt) (fun p =>
        eBind (renderValueTemplate svc "strong" .builtin p.1) (fun out => .ok (out, p.2)))
    | .strikethrough inner =>
      eBind (genInlines svc fuel inner cnt) (fun p =>
        eBind (renderValueTemplate svc "strikethrough" .builtin p.1) (fun out =>
          .ok (out, p.2)))
    | .code s =>
      eBind (renderValueTemplate svc "inline_code" .builtin s) (fun out => .ok (out, cnt))
    | .softBreak =>
      eBind (renderBasicTemplate svc "soft_break" .builtin) (fun out => .ok (out, cnt))
    | .hardBreak =>
      eBind (renderBasicTemplate svc "hard_break" .builtin) (fun out => .ok (out, cnt))
    | .rule =>
      eBind (renderBasicTemplate svc "horizontal_rule" .builtin) (fun out => .ok (out, cnt))
    | .image _ url alt inner =>
      eBind (genInlines svc fuel inner cnt) (fun p =>
        eBind (renderImage svc url alt p.1) (fun out => .ok (out, p.2)))
    | .link _ url alt inner =>
      eBind (genInlines svc fuel inner cnt) (fun p =>
        eBind (renderLink svc url alt p.1) (fun out => .ok (out, p.2)))
    | .html s => .ok (s, cnt)
    | .math src db ts =>
      eBind (renderMath svc db ts src) (fun out => .ok (out, cnt))
    | .shortcode s => genShortcode svc fuel s cnt

/-- Rendering of a vector of inlines (the renderers module's
`render_inner`, modelled from the spec: children in order, results
concatenated), threading the id counter. -/
def genInlines (svc : GenSvc) : Nat → List Inline → Nat → Except String (String × Nat)
  | 0, _, _ => .error "fuelOut"
  | _ + 1, [], cnt => .ok ("", cnt)
  | fuel + 1, i :: rest, cnt =>
    eBind (genInline svc fuel i cnt) (fun p =>
      eBind (genInlines svc fuel rest p.2) (fun q => .ok (p.1 ++ q.1, q.2)))

/-- `RenderElement<OutputValue> for GenericRenderer`
(src/cdoc/src/renderers/generic.rs, lines 182-199). -/
def genOutputValue (svc : GenSvc) : Nat → OutputValue → Nat → Except String (String × Nat)
  | 0, _, _ => .error "fuelOut"
  | _ + 1, node, cnt =>
    match node with
    | .plain lines =>
      eBind (renderValueTemplate svc "output_text" .builtin (String.join lines))
        (fun out => .ok (out, cnt))
    | .image s =>
      eBind (renderValueTemplate svc "output_img" .builtin s) (fun out => .ok (out, cnt))
    | .svg s =>
      eBind (renderValueTemplate svc "output_svg" .builtin s) (fun out => .ok (out, cnt))
    | .json ser => .ok (ser, cnt)
    | .html s => .ok (s, cnt)
    | .javascript _ => .ok ("", cnt)

/-- Rendering of a vector of output values (within a Data cell output),
concatenated. -/
def genOutputValues (svc : GenSvc) : Nat → List OutputValue → Nat →
    Except String (String × Nat)
  | 0, _, _ => .error "fuelOut"
  | _ + 1, [], cnt => .ok ("", cnt)
  | fuel + 1, v :: rest, cnt =>
    eBind (genOutputValue svc fuel v cnt) (fun p =>
      eBind (genOutputValues svc fuel rest p.2) (fun q => .ok (p.1 ++ q.1, q.2)))

/-- `RenderElement<CellOutput> for GenericRenderer`
(src/cdoc/src/renderers/generic.rs, lines 201-228). -/
def genCellOutput (svc : GenSvc) : Nat → CellOutput → Nat → Except String (String × Nat)
  | 0, _, _ => .error "fuelOut"
  | fuel + 1, node, cnt =>
    match node with
    | .stream text .stdOut =>
      eBind (renderValueTemplate svc "output_text" .builtin text) (fun out => .ok (out, cnt))
    | .stream text .stdErr =>
      eBind (renderValueTemplate svc "output_error" .builtin text) (fun out => .ok (out, cnt))
    | .data values => genOutputValues svc fuel values cnt
    | .error evalue =>
      eBind (renderValueTemplate svc "output_error" .builtin evalue) (fun out =>
        .ok (out, cnt))

/-- Rendering of a vector of cell outputs, concatenated. -/
def genCellOutputs (svc : GenSvc) : Nat → List CellOutput → Nat →
    Except String (String × Nat)
  | 0, _, _ => .error "fuelOut"
  | _ + 1, [], cnt => .ok ("", cnt)
  | fuel + 1, o :: rest, cnt =>
    eBind (genCellOutput svc fuel o cnt) (fun p =>
      eBind (genCellOutputs svc fuel rest p.2) (fun q => .ok (p.1 ++ q.1, q.2)))

/-- `RenderElement<Block> for GenericRenderer`
(src/cdoc/src/renderers/generic.rs, lines 241-327).  The CodeBlock arm
draws a fresh id from the process-wide counter, syntax-highlights the
source, renders the outputs, and hands everything to the "cell"
template. -/
def genBlock (svc : GenSvc) : Nat → Block → Nat → Except String (String × Nat)
  | 0, _, _ => .error "fuelOut"
  | fuel + 1, node, cnt =>
    match node with
    | .heading lvl _ _ inner =>
      eBind (genInlines svc fuel inner cnt) (fun p =>
        eBind (svc.renderTpl "header" svc.format .builtin
            [("level", toString (headerLvlToInt lvl)), ("inner", p.1)])
          (fun out => .ok (out, p.2)))
    | .plain inner => genInlines svc fuel inner cnt
    | .paragraph inner =>
      eBind (genInlines svc fuel inner cnt) (fun p =>
        eBind (renderValueTemplate svc "paragraph" .builtin p.1) (fun out => .ok (out, p.2)))
    | .blockQuote inner =>
      eBind (genInlines svc fuel inner cnt) (fun p =>
        eBind (renderValueTemplate svc "paragraph" .builtin p.1) (fun out => .ok (out, p.2)))
    | .codeBlock source _ _ tags outputs =>
      eBind (svc.highlight source) (fun highlighted =>
        eBind (genCellOutputs svc fuel outputs (get_id cnt).2) (fun p =>
          eBind (svc.renderTpl "cell" svc.format .builtin
              [("interactive", bstr svc.interactive), ("cell_outputs", bstr svc.cellOutputs),
                ("editable", bstr svc.editable), ("source", source),
                ("highlighted", highlighted), ("id", toString (get_id cnt).1),
                ("tags", tagsSer tags), ("outputs", p.1)])
            (fun out => .ok (out, p.2))))
    | .list idx items =>
      eBind (genBlocks svc fuel items cnt) (fun p =>
        match idx with
        | none =>
          eBind (renderValueTemplate svc "list_unordered" .builtin p.1) (fun out =>
            .ok (out, p.2))
        | some start =>
          eBind (svc.renderTpl "list_ordered" svc.format .builtin
              [("start", toString start), ("value", p.1)])
            (fun out => .ok (out, p.2)))
    | .listItem inner =>
      eBind (genBlocks svc fuel inner cnt) (fun p =>
        eBind (renderValueTemplate svc "list_item" .builtin p.1) (fun out => .ok (out, p.2)))

/-- Rendering of a vector of blocks, concatenated into the output
buffer. -/
def genBlocks (svc : GenSvc) : Nat → List Block → Nat → Except String (String × Nat)
  | 0, _, _ => .error "fuelOut"
  | _ + 1, [], cnt => .ok ("", cnt)
  | fuel + 1, b :: rest, cnt =>
    eBind (genBlock svc fuel b cnt) (fun p =>
      eBind (genBlocks svc fuel rest p.2) (fun q => .ok (p.1 ++ q.1, q.2)))

/-- `GenericRenderer::render_params`
(src/cdoc/src/renderers/generic.rs, lines 50-59): each argument's block
vector is rendered to a string in place. -/
def genParams (svc : GenSvc) : Nat → List (Argument (List Block)) → Nat →
    Except String (List (Argument String) × Nat)
  | 0, _, _ => .error "fuelOut"
  | _ + 1, [], cnt => .ok ([], cnt)
  | fuel + 1, .positional v :: rest, cnt =>
    eBind (genBlocks svc fuel v cnt) (fun p =>
      eBind (genParams svc fuel rest p.2) (fun q => .ok (.positional p.1 :: q.1, q.2)))
  | fuel + 1, .keyword k v :: rest, cnt =>
    eBind (genBlocks svc fuel v cnt) (fun p =>
      eBind (genParams svc fuel rest p.2) (fun q => .ok (.keyword k p.1 :: q.1, q.2)))

/-- `GenericRenderer::render_shortcode_template`
(src/cdoc/src/renderers/generic.rs, lines 61-120): render the arguments,
validate them against the template's schema (an error here is returned),
look the template up, assemble the context and render it (for block
shortcodes the rendered body is exposed as "body"). -/
def genShortcode (svc : GenSvc) : Nat → Shortcode → Nat → Except String (String × Nat)
  | 0, _, _ => .error "fuelOut"
  | fuel + 1, sc, cnt =>
    match sc with
    | .inline (.mk name id num params) =>
      eBind (genParams svc fuel params cnt) (fun p =>
        eBind (svc.validate name p.1) (fun _ =>
          eBind (svc.getTemplate name .shortcode) (fun tdef =>
            eBind (addArgs tdef (svc.extraArgs ++ [("defs", svc.defsSer)]) id num
                svc.idsSer svc.idsMapSer p.1) (fun args =>
              eBind (svc.renderTpl name svc.format .shortcode args) (fun out =>
                .ok (out, p.2))))))
    | .block (.mk name id num params) body =>
      eBind (genParams svc fuel params cnt) (fun p =>
        eBind (svc.validate name p.1) (fun _ =>
          eBind (svc.getTemplate name .shortcode) (fun tdef =>
            eBind (addArgs tdef (svc.extraArgs ++ [("defs", svc.defsSer)]) id num
                svc.idsSer svc.idsMapSer p.1) (fun args =>
              eBind (genBlocks svc fuel body p.2) (fun b =>
                eBind (svc.renderTpl name svc.format .shortcode
                    (args ++ [("body", b.1)])) (fun out => .ok (out, b.2)))))))

end

/-- `DocumentRenderer::render_doc for GenericRenderer`
(src/cdoc/src/renderers/generic.rs, lines 27-47): render every block of
the document's AST into one buffer; any error aborts and is returned (the
surrounding `Document` carries the metadata unchanged and is not
modelled). -/
def render_doc (svc : GenSvc) (fuel : Nat) (ast : List Block) (cnt : Nat) :
    Except String (String × Nat) :=
  genBlocks svc fuel ast cnt

end Gen

/-- A template service that reports an argument-schema error ("unknown
keyword argument bogus") for every shortcode and renders every template
to "TPL". -/
def svcBad : Gen.GenSvc :=
  { format := "html"
    validate := fun _ _ => .error "unknown keyword argument bogus"
    getTemplate := fun _ _ => .ok ⟨some []⟩
    renderTpl := fun _ _ _ _ => .ok "TPL"
    extraArgs := []
    defsSer := ""
    idsSer := ""
    idsMapSer := ""
    interactive := false
    cellOutputs := true
    editable := false
    highlight := fun _ => .ok "HL" }

/-- C4 (counterexample): a two-block document whose first block holds a
shortcode with an argument-schema error and whose second block is plain
text.  `render_doc` returns the schema error and produces no output at
all — in particular none for the remaining block — although that block
renders fine on its own, refuting the claim that the error is reported
per occurrence without aborting the document. -/
theorem c4_counterexample_schema_error_aborts :
    Gen.render_doc svcBad 10
        [Block.plain [Inline.shortcode (.inline (.mk "note" none 1 []))],
          Block.paragraph [Inline.text "rest"]] 1 =
      .error "unknown keyword argument bogus" ∧
    Gen.render_doc svcBad 10 [Block.paragraph [Inline.text "rest"]] 1 = .ok ("TPL", 1) := by
  exact ⟨rfl, rfl⟩

/-- C4 (amended): an argument-schema error (unknown keyword argument,
missing required argument, wrong arity — any error `validate` reports for
the occurrence's rendered arguments) in a shortcode occurrence is
returned as the render error of that occurrence, and it aborts rendering
of the whole document: `render_doc` on any document starting with a block
holding that occurrence returns the schema error and produces no output
for the remaining blocks. -/
theorem c4_schema_error_aborts_document (svc : Gen.GenSvc) (fuel : Nat) (name : String)
    (id : Option String) (num : Nat) (params : List (Argument (List Block)))
    (cnt : Nat) (rendered : List (Argument String)) (c1 : Nat) (e : String)
    (rest : List Block)
    (hp : Gen.genParams svc fuel params cnt = .ok (rendered, c1))
    (hv : svc.validate name rendered = .error e) :
    Gen.genShortcode svc (fuel + 1) (.inline (.mk name id num params)) cnt = .error e ∧
    Gen.render_doc svc (fuel + 5)
        (Block.plain [Inline.shortcode (.inline (.mk name id num params))] :: rest) cnt =
      .error e := by
  have hsc : Gen.genShortcode svc (fuel + 1) (.inline (.mk name id num params)) cnt =
      .error e := by
    simp only [Gen.genShortcode, hp, Gen.eBind_ok, hv, Gen.eBind_error]
  refine ⟨hsc, ?_⟩
  rw [Gen.render_doc]
  rw [show fuel + 5 = (fuel + 4) + 1 from rfl, Gen.genBlocks]
  rw [show fuel + 4 = (fuel + 3) + 1 from rfl, Gen.genBlock]
  rw [show fuel + 3 = (fuel + 2) + 1 from rfl, Gen.genInlines]
  rw [show fuel + 2 = (fuel + 1) + 1 from rfl, Gen.genInline]
  rw [hsc]
  rfl

/-- C4 witness: the amended theorem at the concrete failing service — the
whole two-block document errors with the schema error. -/
theorem c4_schema_error_aborts_document_witness :
    Gen.genShortcode svcBad 2 (.inline (.mk "note" none 1 [])) 1 =
      .error "unknown keyword argument bogus" ∧
    Gen.render_doc svcBad 6
        [Block.plain [Inline.shortcode (.inline (.mk "note" none 1 []))],
          Block.paragraph [Inline.text "rest"]] 1 =
      .error "unknown keyword argument bogus" :=
  c4_schema_error_aborts_document svcBad 1 "note" none 1 [] 1 [] 1
    "unknown keyword argument bogus" [Block.paragraph [Inline.text "rest"]] rfl rfl

/-- A template service that accepts every argument list and renders every
template to "TPL". -/
def svcTPL : Gen.GenSvc :=
  { format := "html"
    validate := fun _ _ => .ok ()
    getTemplate := fun _ _ => .ok ⟨some []⟩
    renderTpl := fun _ _ _ _ => .ok "TPL"
    extraArgs := []
    defsSer := ""
    idsSer := ""
    idsMapSer := ""
    interactive := false
    cellOutputs := true
    editable := false
    highlight := fun _ => .ok "HL" }

/-- Like `svcTPL`, but the syntax highlighter fails. -/
def svcHL : Gen.GenSvc :=
  { format := "html"
    validate := fun _ _ => .ok ()
    getTemplate := fun _ _ => .ok ⟨some []⟩
    renderTpl := fun _ _ _ _ => .ok "TPL"
    extraArgs := []
    defsSer := ""
    idsSer := ""
    idsMapSer := ""
    interactive := false
    cellOutputs := true
    editable := false
    highlight := fun _ => .error "no highlighter" }

/-- C6 (counterexample): under a service whose every template renders to
"TPL", a variant rendered "purely by looking up a named template" can
only produce "TPL" (or an error) — but Inline::Text renders to its own
payload verbatim, bypassing the template service entirely (contrast with
Inline::Code, which does delegate and produces "TPL"). -/
theorem c6_counterexample_text_bypasses_templates :
    Gen.genInline svcTPL 1 (.text "x") 0 = .ok ("x", 0) ∧
    Gen.genInline svcTPL 1 (.code "x") 0 = .ok ("TPL", 0) ∧
    "x" ≠ "TPL" := by
  refine ⟨rfl, rfl, by decide⟩

/-- Bridging lemma: the renderer's "delegate and keep the counter"
pattern is a map over the template service's result. -/
theorem eBind_pure_map {β : Type} (x : Except String String) (g : String → β) :
    Gen.eBind x (fun o => .ok (g o)) = x.map g := by
  cases x <;> rfl

/-- C6 (amended): in the templated format most variants are rendered
purely by a named-template lookup over a context of named values (shown
here for the representative leaf variants: inline code, the break/rule
variants, emphasis, and the plain/image/svg output values, whose output
is exactly the service's render result for the template of that name) —
but not all: Inline::Text and Inline::Html are written verbatim,
OutputValue::Json is serialized directly, OutputValue::Html is written
verbatim, OutputValue::Javascript is dropped, Block::Plain renders its
children with no template of its own, and Block::CodeBlock hardcodes
syntax highlighting of the source (a failing highlighter fails the
render even though every template renders fine). -/
theorem c6_generic_rendering_delegation (svc : Gen.GenSvc) (fuel cnt : Nat) (s : String)
    (inner : List Inline) (lines : List String) :
    Gen.genInline svc (fuel + 1) (.text s) cnt = .ok (s, cnt) ∧
    Gen.genInline svc (fuel + 1) (.html s) cnt = .ok (s, cnt) ∧
    Gen.genInline svc (fuel + 1) (.code s) cnt =
      (svc.renderTpl "inline_code" svc.format .builtin [("value", s)]).map (fun o => (o, cnt)) ∧
    Gen.genInline svc (fuel + 1) .softBreak cnt =
      (svc.renderTpl "soft_break" svc.format .builtin []).map (fun o => (o, cnt)) ∧
    Gen.genInline svc (fuel + 1) .hardBreak cnt =
      (svc.renderTpl "hard_break" svc.format .builtin []).map (fun o => (o, cnt)) ∧
    Gen.genInline svc (fuel + 1) .rule cnt =
      (svc.renderTpl "horizontal_rule" svc.format .builtin []).map (fun o => (o, cnt)) ∧
    Gen.genInline svc (fuel + 1) (.emphasis inner) cnt =
      Gen.eBind (Gen.genInlines svc fuel inner cnt) (fun p =>
        (svc.renderTpl "emphasis" svc.format .builtin [("value", p.1)]).map
          (fun o => (o, p.2))) ∧
    Gen.genOutputValue svc (fuel + 1) (.json s) cnt = .ok (s, cnt) ∧
    Gen.genOutputValue svc (fuel + 1) (.html s) cnt = .ok (s, cnt) ∧
    Gen.genOutputValue svc (fuel + 1) (.javascript s) cnt = .ok ("", cnt) ∧
    Gen.genOutputValue svc (fuel + 1) (.plain lines) cnt =
      (svc.renderTpl "output_text" svc.format .builtin
        [("value", String.join lines)]).map (fun o => (o, cnt)) ∧
    Gen.genOutputValue svc (fuel + 1) (.image s) cnt =
      (svc.renderTpl "output_img" svc.format .builtin [("value", s)]).map
        (fun o => (o, cnt)) ∧
    Gen.genOutputValue svc (fuel + 1) (.svg s) cnt =
      (svc.renderTpl "output_svg" svc.format .builtin [("value", s)]).map
        (fun o => (o, cnt)) ∧
    Gen.genBlock svc (fuel + 1) (.plain inner) cnt = Gen.genInlines svc fuel inner cnt ∧
    (∀ (source : String) (ref : Option String) (attr : CodeAttributes)
        (tags : Option (List String)) (outputs : List CellOutput) (e : String),
      svc.highlight source = .error e →
      Gen.genBlock svc (fuel + 1) (.codeBlock source ref attr tags outputs) cnt =
        .error e) := by
  refine ⟨rfl, rfl, ?_, ?_, ?_, ?_, ?_, rfl, rfl, rfl, ?_, ?_, ?_, rfl, ?_⟩
  · rw [Gen.genInline]
    exact eBind_pure_map _ _
  · rw [Gen.genInline]
    exact eBind_pure_map _ _
  · rw [Gen.genInline]
    exact eBind_pure_map _ _
  · rw [Gen.genInline]
    exact eBind_pure_map _ _
  · rw [Gen.genInline]
    congr 1
    funext p
    exact eBind_pure_map _ _
  · rw [Gen.genOutputValue]
    exact eBind_pure_map _ _
  · rw [Gen.genOutputValue]
    exact eBind_pure_map _ _
  · rw [Gen.genOutputValue]
    exact eBind_pure_map _ _
  · intro source ref attr tags outputs e he
    rw [Gen.genBlock, he]
    rfl

/-- C6 witness: the amended theorem at a concrete service with a failing
highlighter — the code block render fails with the highlighter's error
while inline text still renders verbatim. -/
theorem c6_generic_rendering_delegation_witness :
    Gen.genInline svcHL 1 (.text "x") 0 = .ok ("x", 0) ∧
    Gen.genBlock svcHL 1 (.codeBlock "src" none ⟨true, false⟩ none []) 0 =
      .error "no highlighter" :=
  ⟨(c6_generic_rendering_delegation svcHL 0 0 "x" [] []).1,
    (c6_generic_rendering_delegation svcHL 0 0 "x" [] []).2.2.2.2.2.2.2.2.2.2.2.2.2.2
      "src" none ⟨true, false⟩ none [] "no highlighter" rfl⟩

/-- C8 witness: the amended theorem instantiated at the concrete input
"\x60a\x60" (a single-backtick code span covering the whole input). -/
theorem c8_code_span_scanning_witness :
    List.Chain' (fun a b : Nat × Nat => a.2 ≤ b.1)
        (find_all_blocks ['\x60', 'a', '\x60']) ∧
      (strFind ['\x60'] ['\x60', 'a', '\x60'] = some 0 ∧ 0 < 3 ∧
        3 ≤ (['\x60', 'a', '\x60'] : Chars).length ∧
        ((['\x60', 'a', '\x60'] : Chars).drop 0).take 1 = ['\x60'] ∧
        ((['\x60', 'a', '\x60'] : Chars).drop
            (3 - (endDelimSel ((['\x60', 'a', '\x60'] : Chars).drop 1)).length)).take
          (endDelimSel ((['\x60', 'a', '\x60'] : Chars).drop 1)).length =
            endDelimSel ((['\x60', 'a', '\x60'] : Chars).drop 1)) :=
  ⟨(c8_code_span_scanning ['\x60', 'a', '\x60']).1,
    (c8_code_span_scanning ['\x60', 'a', '\x60']).2.2 0 3 (by decide)⟩

end Cdoc

